import Mathlib

/-!
Shallow embedding of the Whatsapp-Lite chat core (Go) for specification
checking: conversation-identifier derivation and parsing
(internal/conversation/repository.go), cursor pagination (GetMessages),
the websocket hub registry (internal/websocket/hub.go) and the message
router (internal/websocket/router.go).

Go strings are modelled as `List Char` (the repository only handles ASCII
identifiers, where Go's byte indexing coincides with character indexing);
`uuid.UUID` values (16 raw bytes) are modelled as `List Nat`;
timestamps as `Nat`.
-/

namespace Chat

/-- A parsed UUID value: its 16 bytes (github.com/google/uuid stores
`[16]byte`; Go `==` on them is byte-wise equality). -/
abbrev UUIDv : Type := List Nat

/-- Model of `xvalues` lookup in github.com/google/uuid: hex digit value of a
byte, `none` standing for the 255 sentinel. -/
def hexVal (c : Char) : Option Nat :=
  if '0' ≤ c ∧ c ≤ '9' then some (c.toNat - '0'.toNat)
  else if 'a' ≤ c ∧ c ≤ 'f' then some (c.toNat - 'a'.toNat + 10)
  else if 'A' ≤ c ∧ c ≤ 'F' then some (c.toNat - 'A'.toNat + 10)
  else none

/-- Model of `xtob(x1, x2)` in github.com/google/uuid: two hex characters to
one byte, failing when either is not a hex digit. -/
def xtob (x1 x2 : Char) : Option Nat :=
  match hexVal x1, hexVal x2 with
  | some b1, some b2 => some (b1 * 16 + b2)
  | _, _ => none

/-- Character of `s` at byte index `i` (ASCII strings only, so byte = char). -/
def charAt (s : List Char) (i : Nat) : Char := s.getD i ' '

/-- Byte offsets of the 16 hex pairs in the canonical 36-character UUID text
`xxxxxxxx-xxxx-xxxx-xxxx-xxxxxxxxxxxx` (the literal offset table in
`uuid.Parse`). -/
def uuidHexOffsets : List Nat := [0, 2, 4, 6, 9, 11, 14, 16, 19, 21, 24, 26, 28, 30, 32, 34]

/-- Read one byte of the UUID at each listed offset, failing on any non-hex
character. -/
def parseHexPairs (s : List Char) : List Nat → Option (List Nat)
  | [] => some []
  | x :: xs =>
    match xtob (charAt s x) (charAt s (x + 1)), parseHexPairs s xs with
    | some b, some bs => some (b :: bs)
    | _, _ => none

/-- The canonical-form tail of `uuid.Parse`: requires hyphens at offsets
8, 13, 18 and 23, then reads the 16 hex pairs.  Only the first 36
characters are inspected (exactly as the Go code indexes `s[0..35]`). -/
def parseCanon (s : List Char) : Option (List Nat) :=
  if charAt s 8 = '-' ∧ charAt s 13 = '-' ∧ charAt s 18 = '-' ∧ charAt s 23 = '-' then
    parseHexPairs s uuidHexOffsets
  else none

/-- ASCII lower-casing, the fragment of `strings.EqualFold` relevant to the
`urn:uuid:` prefix comparison. -/
def asciiLower (c : Char) : Char :=
  if 'A' ≤ c ∧ c ≤ 'Z' then Char.ofNat (c.toNat + 32) else c

/-- Case-insensitive equality of ASCII character lists (`strings.EqualFold`
restricted to ASCII, which is all `uuid.Parse` compares). -/
def eqFold (a b : List Char) : Bool := a.map asciiLower = b.map asciiLower

/-- The characters of the literal `"urn:uuid:"`. -/
def urnUuidChars : List Char := ['u', 'r', 'n', ':', 'u', 'u', 'i', 'd', ':']

/-- Model of `uuid.Parse` from github.com/google/uuid (the dependency used by
the repository): switches on the input length — 36 canonical, 45 with a
case-insensitive `urn:uuid:` prefix, 38 with the first character dropped
(the Go code never verifies the braces), or 32 bare hex characters — and
fails on every other length. -/
def uuidParse (s : List Char) : Option (List Nat) :=
  if s.length = 36 then parseCanon s
  else if s.length = 45 then
    if eqFold (s.take 9) urnUuidChars then parseCanon (s.drop 9) else none
  else if s.length = 38 then parseCanon (s.drop 1)
  else if s.length = 32 then
    parseHexPairs s [0, 2, 4, 6, 8, 10, 12, 14, 16, 18, 20, 22, 24, 26, 28, 30]
  else none

/-- Lower-case hex digit of a value below 16 (`uuid.UUID.String` encoding). -/
def hexDigit (n : Nat) : Char :=
  if n < 10 then Char.ofNat ('0'.toNat + n) else Char.ofNat ('a'.toNat + n - 10)

/-- Two lower-case hex characters of one byte. -/
def byteHex (b : Nat) : List Char := [hexDigit (b / 16 % 16), hexDigit (b % 16)]

/-- Hex encoding of a byte list. -/
def bytesHex (bs : List Nat) : List Char := bs.flatMap byteHex

/-- Model of `uuid.UUID.String()`: canonical lower-case
`xxxxxxxx-xxxx-xxxx-xxxx-xxxxxxxxxxxx` text of the 16 bytes. -/
def uuidString (u : UUIDv) : List Char :=
  let bs : List Nat := u
  bytesHex (bs.take 4) ++ '-' :: bytesHex ((bs.drop 4).take 2) ++
    '-' :: bytesHex ((bs.drop 6).take 2) ++ '-' :: bytesHex ((bs.drop 8).take 2) ++
    '-' :: bytesHex (bs.drop 10)

/-- Go byte-wise `<` on strings (ASCII, so per-character code comparison). -/
def listLt : List Char → List Char → Bool
  | [], [] => false
  | [], _ :: _ => true
  | _ :: _, [] => false
  | a :: as, b :: bs =>
    if a.toNat < b.toNat then true
    else if b.toNat < a.toNat then false
    else listLt as bs

/-- PostgreSQL `uuid < uuid`: memcmp of the 16 raw bytes. -/
def bytesLt : List Nat → List Nat → Bool
  | [], [] => false
  | [], _ :: _ => true
  | _ :: _, [] => false
  | a :: as, b :: bs =>
    if a < b then true
    else if b < a then false
    else bytesLt as bs

/-- The smaller-first hyphen join shared by
`PostgresRepository.GetOrCreateConversation` and the inline derivation in
`Router.handleDirectMessage` (repository.go:331-343, router.go:108-114). -/
def joinMinMax (s1 s2 : List Char) : List Char :=
  if listLt s1 s2 then s1 ++ '-' :: s2 else s2 ++ '-' :: s1

/-- `PostgresRepository.GetOrCreateConversation` (repository.go:331-343): the
conversation identifier is the two identities' canonical strings joined by a
hyphen, lexicographically smaller string first. -/
def GetOrCreateConversation (userID1 userID2 : UUIDv) : List Char :=
  joinMinMax (uuidString userID1) (uuidString userID2)

/-- `splitConversationID` (repository.go:348-370): rejects inputs shorter
than 73 characters, then parses characters `[0,36)` as the first UUID and
characters `[37,‥)` as the second via `uuid.Parse` — the character at
index 36 is skipped without being checked. -/
def splitConversationID (conversationID : List Char) : Option (UUIDv × UUIDv) :=
  if conversationID.length < 73 then none
  else
    match uuidParse (conversationID.take 36), uuidParse (conversationID.drop 37) with
    | some first, some second => some (first, second)
    | _, _ => none

/-- `PostgresRepository.IsUserInConversation` (repository.go:257-265): splits
the identifier and compares the user's UUID against the two components.  The
Go method receives a database handle but never queries it; accordingly the
model takes no store argument. -/
def IsUserInConversation (conversationID : List Char) (userID : UUIDv) : Option Bool :=
  match splitConversationID conversationID with
  | none => none
  | some (user1ID, user2ID) => some (decide (userID = user1ID ∨ userID = user2ID))

/-- One row of the `direct_messages` table (migration `001` and
`models.DirectMessage`): server-assigned UUID, sender, recipient, content,
the two delivery flags, and the creation timestamp. -/
structure Msg where
  id : UUIDv
  senderId : UUIDv
  recipientId : UUIDv
  content : List Char
  delivered : Bool
  read : Bool
  createdAt : Nat
deriving DecidableEq, Inhabited

/-- Whether a row belongs to the conversation of `u1` and `u2`: the SQL
predicate `(sender_id = $1 AND recipient_id = $2) OR (sender_id = $2 AND
recipient_id = $1)` of `GetMessages`. -/
def betweenUsers (u1 u2 : UUIDv) (m : Msg) : Bool :=
  (m.senderId = u1 ∧ m.recipientId = u2) ∨ (m.senderId = u2 ∧ m.recipientId = u1)

/-- Insert a row into a list already sorted by `created_at` descending,
keeping it sorted (rows with equal timestamps keep their relative order). -/
def insertByTimeDesc (m : Msg) : List Msg → List Msg
  | [] => [m]
  | x :: xs => if x.createdAt < m.createdAt then m :: x :: xs else x :: insertByTimeDesc m xs

/-- `ORDER BY dm.created_at DESC` — newest first; the SQL order is
nondeterministic on equal timestamps, realised here as a stable sort. -/
def sortByTimeDesc : List Msg → List Msg
  | [] => []
  | x :: xs => insertByTimeDesc x (sortByTimeDesc xs)

/-- `PostgresRepository.GetMessages` (repository.go:172-254) over a store
modelled as the list of `direct_messages` rows.  Splits the conversation
identifier; parses a non-empty `before` cursor with `uuid.Parse` (error on
failure); selects the conversation's rows, keeping — when a cursor is given —
only rows with `dm.id < cursor` (byte-wise UUID comparison); orders by
`created_at` descending and fetches `limit+1` rows; reports
`hasMore = fetched > limit`, and in that case truncates to `limit` rows and
sets `nextCursor` to `messages[limit].ID.String()`, the fetched row just past
the truncated page; otherwise `nextCursor` is empty.  `none` models the
error return. -/
def GetMessages (db : List Msg) (conversationID : List Char) (before : List Char)
    (limit : Nat) : Option (List Msg × Bool × List Char) :=
  match splitConversationID conversationID with
  | none => none
  | some (user1ID, user2ID) =>
    match (if before = [] then some none else (uuidParse before).map some :
        Option (Option UUIDv)) with
    | none => none
    | some beforeID =>
      let eligible := db.filter (fun m =>
        betweenUsers user1ID user2ID m &&
          match beforeID with
          | some b => bytesLt m.id b
          | none => true)
      let fetched := (sortByTimeDesc eligible).take (limit + 1)
      if limit < fetched.length then
        some (fetched.take limit, true, uuidString (fetched.getD limit default).id)
      else
        some (fetched, false, [])

/-- The paging protocol described by the specification: start from an empty
cursor and keep calling `GetMessages` with each response's `nextCursor`
while `hasMore` is true, concatenating the pages.  `fuel` bounds the
iteration so the model is total; every claim instance below terminates by
`hasMore = false` well before the fuel runs out. -/
def fetchAllPages (db : List Msg) (conversationID : List Char) (limit : Nat) :
    Nat → List Char → List Msg
  | 0, _ => []
  | fuel + 1, before =>
    match GetMessages db conversationID before limit with
    | none => []
    | some (msgs, hasMore, nextCursor) =>
      msgs ++ (if hasMore then fetchAllPages db conversationID limit fuel nextCursor else [])

/-- A websocket client handle (`websocket.Client`): pointer identity is
modelled by `handle`, and `uid` is `client.userID.String()`, the key the hub
uses for its user map. -/
structure HClient where
  handle : Nat
  uid : List Char
deriving DecidableEq

/-- The hub's two collections (`websocket.Hub`): the `clients` set
(`map[*Client]bool`) and the `userClients` map
(`map[string]*Client`, keyed by `userID.String()`).  The presence
broadcasts and the channel close touch neither collection and are
not modelled. -/
structure Hub where
  clients : List HClient
  userClients : List (List Char × HClient)
deriving DecidableEq

/-- The empty hub (`NewHub`). -/
def emptyHub : Hub := ⟨[], []⟩

/-- Go map insert: replace the value when the key is present, otherwise
append the binding. -/
def mapInsert (k : List Char) (v : HClient) : List (List Char × HClient) →
    List (List Char × HClient)
  | [] => [(k, v)]
  | (k0, v0) :: rest => if k0 = k then (k, v) :: rest else (k0, v0) :: mapInsert k v rest

/-- Go map delete: remove the binding of the key, if any. -/
def mapDelete (k : List Char) : List (List Char × HClient) → List (List Char × HClient)
  | [] => []
  | (k0, v0) :: rest => if k0 = k then mapDelete k rest else (k0, v0) :: mapDelete k rest

/-- Go map lookup. -/
def mapLookup (k : List Char) : List (List Char × HClient) → Option HClient
  | [] => none
  | (k0, v0) :: rest => if k0 = k then some v0 else mapLookup k rest

/-- Go set insert (`h.clients[client] = true`). -/
def setInsert (c : HClient) (l : List HClient) : List HClient :=
  if c ∈ l then l else c :: l

/-- Go map delete on the client set (`delete(h.clients, client)`). -/
def setRemove (c : HClient) : List HClient → List HClient
  | [] => []
  | x :: xs => if x = c then setRemove c xs else x :: setRemove c xs

/-- `Hub.registerClient` (hub.go:77-90): adds the handle to the `clients`
set and points `userClients[uid]` at it (silently replacing any previous
handle for the same identity — which stays in the `clients` set). -/
def registerClient (h : Hub) (client : HClient) : Hub :=
  { clients := setInsert client h.clients,
    userClients := mapInsert client.uid client h.userClients }

/-- `Hub.unregisterClient` (hub.go:93-105): when the handle is still in the
`clients` set, removes it there and deletes `userClients[uid]` for the
handle's identity; otherwise does nothing. -/
def unregisterClient (h : Hub) (client : HClient) : Hub :=
  if client ∈ h.clients then
    { clients := setRemove client h.clients,
      userClients := mapDelete client.uid h.userClients }
  else h

/-- `Hub.IsUserConnected` (hub.go:151-156): membership of
`userID.String()` in the user map. -/
def IsUserConnected (h : Hub) (uid : List Char) : Bool :=
  (mapLookup uid h.userClients).isSome

/-- Acknowledgement status carried by `message_ack` envelopes. -/
inductive AckStatus where
  | sent
  | delivered
deriving DecidableEq

/-- Outbound envelopes the router emits (`models.WebSocketMessage` payloads
relevant to the claims).  The router reads the wall clock several times per
run; those instants are collapsed to the single `now` the run receives. -/
inductive Envelope where
  | ack (clientMessageId serverMessageId : List Char) (status : AckStatus) (ts : Nat)
  | errMsg (code : Nat)
  | push (messageId conversationId senderId senderUsername content : List Char) (ts : Nat)
  | receiptNote (userId username conversationId lastReadMessageId : List Char)
deriving DecidableEq

/-- An emission of the router: either `client.SendMessage`/`client.sendError`
back to the handling client, or `hub.SendToUser(uid, ...)` keyed by the
target's `userID.String()`. -/
inductive Eff where
  | toSender (e : Envelope)
  | toUser (uid : List Char) (e : Envelope)
deriving DecidableEq

/-- `Router.handleDirectMessage` (router.go:61-194) as a function from the
pre-state to the emitted envelopes (in program order) and the resulting
message store.  Arguments mirror the Go data: the registry's connected-user
keys, the store rows, the sending client's identity and display name, the
three `data` fields (`none` = absent), the freshly generated server message
UUID, the wall-clock instant, and whether `SaveMessage` fails (the store is
fallible; `saveFails` selects the error branch of router.go:157-162).
Field checks, the `sent` acknowledgement, persistence with
`delivered=false, read=false`, the `delivered` acknowledgement and the
conditional forward reproduce the Go control flow in order. -/
def handleDirectMessage (connected : List (List Char)) (db : List Msg)
    (senderUid : UUIDv) (senderName : List Char)
    (recipientIdStr content clientMsgId : Option (List Char))
    (serverMsgId : UUIDv) (now : Nat) (saveFails : Bool) : List Eff × List Msg :=
  match recipientIdStr with
  | none => ([Eff.toSender (Envelope.errMsg 1000)], db)
  | some rStr =>
    match content with
    | none => ([Eff.toSender (Envelope.errMsg 1000)], db)
    | some text =>
      match clientMsgId with
      | none => ([Eff.toSender (Envelope.errMsg 1000)], db)
      | some cmid =>
        match uuidParse rStr with
        | none => ([Eff.toSender (Envelope.errMsg 1002)], db)
        | some recipientID =>
          let conversationID := joinMinMax (uuidString senderUid) rStr
          let sentAck := Eff.toSender
            (Envelope.ack cmid (uuidString serverMsgId) AckStatus.sent now)
          if saveFails then
            ([sentAck, Eff.toSender (Envelope.errMsg 1009)], db)
          else
            let row : Msg := ⟨serverMsgId, senderUid, recipientID, text, false, false, now⟩
            let deliveredAck := Eff.toSender
              (Envelope.ack cmid (uuidString serverMsgId) AckStatus.delivered now)
            let forward :=
              if uuidString recipientID ∈ connected then
                [Eff.toUser (uuidString recipientID)
                  (Envelope.push (uuidString serverMsgId) conversationID
                    (uuidString senderUid) senderName text now)]
              else []
            ([sentAck, deliveredAck] ++ forward, db ++ [row])

/-- The characters of the placeholder literal
`"00000000-0000-0000-0000-000000000000"` in `handleReadReceipt`. -/
def zeroUuidChars : List Char := uuidString (List.replicate 16 0)

/-- `Router.handleReadReceipt` (router.go:237-279): after the two field
checks it parses the hard-coded placeholder UUID string — never the
conversation identifier — and forwards the receipt to that placeholder
identity via `hub.SendToUser`. -/
def handleReadReceipt (senderUid : UUIDv) (senderName : List Char)
    (conversationId lastReadMessageId : Option (List Char)) : List Eff :=
  match conversationId with
  | none => [Eff.toSender (Envelope.errMsg 1000)]
  | some cid =>
    match lastReadMessageId with
    | none => [Eff.toSender (Envelope.errMsg 1000)]
    | some lastRead =>
      match uuidParse zeroUuidChars with
      | none => [Eff.toSender (Envelope.errMsg 1003)]
      | some otherUserID =>
        [Eff.toUser (uuidString otherUserID)
          (Envelope.receiptNote (uuidString senderUid) senderName cid lastRead)]

/-! Concrete fixtures used to evaluate the model: identities are UUIDs whose
first fifteen bytes are zero, distinguished by the last byte. -/

/-- A UUID whose sixteen bytes are fifteen zeros followed by `n`. -/
def idByte (n : Nat) : UUIDv := List.replicate 15 0 ++ [n]

/-- Identity of user A. -/
def uaId : UUIDv := idByte 10

/-- Identity of user B. -/
def ubId : UUIDv := idByte 11

/-- The conversation identifier of A and B, produced by the code's own
derivation. -/
def cidAB : List Char := GetOrCreateConversation uaId ubId

/-- A stored message from A to B with message UUID `idByte idN` and creation
time `t`. -/
def msgAB (idN t : Nat) : Msg := ⟨idByte idN, uaId, ubId, ['h', 'i'], false, false, t⟩

/-- Three stored messages of the A–B conversation, newest first by creation
time (3, 2, 1); their message UUIDs (last byte 5, 2, 7) are not aligned with
the timestamps. -/
def dbThree : List Msg := [msgAB 5 3, msgAB 2 2, msgAB 7 1]

/-- Two stored messages of the A–B conversation: the newer has UUID
`idByte 1`, the older `idByte 2`. -/
def dbTwo : List Msg := [msgAB 1 2, msgAB 2 1]

/-- A first connection handle for user A. -/
def clientOne : HClient := ⟨1, uuidString uaId⟩

/-- A second, replacing connection handle for user A. -/
def clientTwo : HClient := ⟨2, uuidString uaId⟩

/-- A conversation identifier of length 82 whose second component is in
`urn:uuid:` form. -/
def urnConvId : List Char := uuidString uaId ++ '-' :: (urnUuidChars ++ uuidString ubId)

/-- A length-73 conversation identifier whose separator at index 36 is an
underscore instead of a hyphen. -/
def underscoreConvId : List Char := uuidString uaId ++ '_' :: uuidString ubId

/-! Helper lemmas about the byte-wise string order. -/

theorem charEq_of_toNat_eq {c d : Char} (h : c.toNat = d.toNat) : c = d :=
  Char.ext_iff.mpr (UInt32.ext_iff.mpr h)

theorem listLt_eq_of_both_false :
    ∀ {a b : List Char}, listLt a b = false → listLt b a = false → a = b
  | [], [], _, _ => rfl
  | [], _ :: _, h1, _ => by simp [listLt] at h1
  | _ :: _, [], _, h2 => by simp [listLt] at h2
  | a :: as, b :: bs, h1, h2 => by
    unfold listLt at h1 h2
    by_cases hab : a.toNat < b.toNat
    · simp [hab] at h1
    · by_cases hba : b.toNat < a.toNat
      · simp [hba] at h2
      · simp [hab, hba] at h1 h2
        have hcd : a = b := charEq_of_toNat_eq (Nat.le_antisymm
          (Nat.not_lt.mp hba) (Nat.not_lt.mp hab))
        rw [hcd, listLt_eq_of_both_false h1 h2]

theorem listLt_asymm : ∀ {a b : List Char}, listLt a b = true → listLt b a = false
  | [], [], h => by simp [listLt] at h
  | [], _ :: _, _ => by simp [listLt]
  | _ :: _, [], h => by simp [listLt] at h
  | a :: as, b :: bs, h => by
    unfold listLt at h ⊢
    by_cases hab : a.toNat < b.toNat
    · simp [hab, Nat.lt_asymm hab]
    · by_cases hba : b.toNat < a.toNat
      · simp [hab, hba] at h
      · simp [hab, hba] at h ⊢
        exact listLt_asymm h

theorem joinMinMax_comm (s1 s2 : List Char) : joinMinMax s1 s2 = joinMinMax s2 s1 := by
  unfold joinMinMax
  cases h1 : listLt s1 s2 <;> cases h2 : listLt s2 s1 <;> simp
  · rw [listLt_eq_of_both_false h1 h2]
  · rw [listLt_asymm h1] at h2
    exact absurd h2 (by simp)

/-! The claims. -/

/-- Claim C1 (failing-input evaluation): pagination is not exhaustive.  In a
conversation of three messages whose UUIDs are not aligned with creation
time, the `FetchPage` loop with `limit = 1` starting from the empty cursor
yields only the newest message and then stops with `hasMore = false` — the
two older messages are never returned, because the second page filters on
`dm.id < nextCursor` where `nextCursor` is the UUID of the already dropped
second-newest message. -/
theorem pagination_drops_messages :
    fetchAllPages dbThree cidAB 1 10 [] = [msgAB 5 3] ∧
    GetMessages dbThree cidAB (uuidString (idByte 2)) 1 = some ([], false, []) ∧
    splitConversationID cidAB = some (uaId, ubId) ∧
    (dbThree.filter (betweenUsers uaId ubId)).length = 3 := by decide

/-- Claim C2 (failing-input evaluation): with two stored messages and
`limit = 1`, `GetMessages` returns the newer message (UUID `idByte 1`) with
`hasMore = true`, but sets `nextCursor` to the UUID of the *older, dropped*
message (`idByte 2`) — not to the identity of the last returned (oldest)
message of the truncated page, which is `idByte 1`. -/
theorem nextCursor_is_not_last_returned :
    GetMessages dbTwo cidAB [] 1 = some ([msgAB 1 2], true, uuidString (idByte 2)) ∧
    uuidString (idByte 2) ≠ uuidString (msgAB 1 2).id := by decide

/-- Claim C3 (failing-input evaluation): after registering `clientOne` and
then `clientTwo` for the same identity, the user map holds exactly the
second handle; but unregistering the stale `clientOne` afterwards is *not* a
no-op — it deletes the identity's entry (evicting `clientTwo`'s mapping)
while `clientTwo` itself even remains in the clients set. -/
theorem stale_remove_evicts_replacement :
    (registerClient (registerClient emptyHub clientOne) clientTwo).userClients
        = [(uuidString uaId, clientTwo)] ∧
    mapLookup (uuidString uaId)
        (unregisterClient (registerClient (registerClient emptyHub clientOne) clientTwo)
          clientOne).userClients = none ∧
    clientTwo ∈ (unregisterClient (registerClient (registerClient emptyHub clientOne) clientTwo)
          clientOne).clients := by decide

/-- Claim C4 (failing-input evaluation): a well-formed `read_receipt` from
user A in the A–B conversation is forwarded to the hard-coded placeholder
identity `00000000-…-000000000000`, which is neither participant — the
router never resolves the conversation identifier back to B. -/
theorem readReceipt_targets_placeholder :
    handleReadReceipt uaId ['a'] (some cidAB) (some (uuidString (idByte 1)))
      = [Eff.toUser zeroUuidChars
          (Envelope.receiptNote (uuidString uaId) ['a'] cidAB (uuidString (idByte 1)))] ∧
    splitConversationID cidAB = some (uaId, ubId) ∧
    zeroUuidChars ≠ uuidString ubId ∧ zeroUuidChars ≠ uuidString uaId := by decide

/-- Claim C5 (failing-input evaluation): with recipient B connected, the
direct-message handler pushes the message to B while the freshly persisted
row still carries `delivered = false`; no code path ever sets
`delivered = true`, so the claimed invariant fails at the first online
delivery. -/
theorem push_attempted_with_undelivered_row :
    handleDirectMessage [uuidString ubId] [] uaId ['a'] (some (uuidString ubId))
        (some ['h', 'i']) (some ['c', '1']) (idByte 7) 5 false
      = ([Eff.toSender (Envelope.ack ['c', '1'] (uuidString (idByte 7)) AckStatus.sent 5),
          Eff.toSender (Envelope.ack ['c', '1'] (uuidString (idByte 7)) AckStatus.delivered 5),
          Eff.toUser (uuidString ubId)
            (Envelope.push (uuidString (idByte 7)) cidAB (uuidString uaId) ['a']
              ['h', 'i'] 5)],
         [⟨idByte 7, uaId, ubId, ['h', 'i'], false, false, 5⟩]) ∧
    (⟨idByte 7, uaId, ubId, ['h', 'i'], false, false, 5⟩ : Msg).delivered = false := by decide

/-- Claim C6: a valid `direct_message` to an unconnected recipient emits
exactly the `sent` acknowledgement followed by the `delivered`
acknowledgement to the sender, pushes nothing to anybody, and appends
exactly one row with `delivered = false` and `read = false`; moreover the
`sent` acknowledgement is emitted before persistence — it is the first
emission even on the run where persistence fails. -/
theorem directMessage_offline_behavior
    (connected : List (List Char)) (db : List Msg) (senderUid : UUIDv)
    (senderName rStr text cmid : List Char) (recipientID serverMsgId : UUIDv) (now : Nat)
    (hparse : uuidParse rStr = some recipientID)
    (hoffline : uuidString recipientID ∉ connected) :
    handleDirectMessage connected db senderUid senderName (some rStr) (some text)
        (some cmid) serverMsgId now false
      = ([Eff.toSender (Envelope.ack cmid (uuidString serverMsgId) AckStatus.sent now),
          Eff.toSender (Envelope.ack cmid (uuidString serverMsgId) AckStatus.delivered now)],
         db ++ [⟨serverMsgId, senderUid, recipientID, text, false, false, now⟩]) ∧
    (handleDirectMessage connected db senderUid senderName (some rStr) (some text)
        (some cmid) serverMsgId now true).1.head?
      = some (Eff.toSender (Envelope.ack cmid (uuidString serverMsgId) AckStatus.sent now)) := by
  simp [handleDirectMessage, hparse, hoffline]

/-- Witness for C6 at a concrete input: recipient B, empty registry. -/
theorem directMessage_offline_behavior_witness :
    uuidParse (uuidString ubId) = some ubId ∧
    uuidString ubId ∉ ([] : List (List Char)) ∧
    (handleDirectMessage [] [] uaId ['a'] (some (uuidString ubId)) (some ['h', 'i'])
        (some ['c', '1']) (idByte 7) 5 false
      = ([Eff.toSender (Envelope.ack ['c', '1'] (uuidString (idByte 7)) AckStatus.sent 5),
          Eff.toSender (Envelope.ack ['c', '1'] (uuidString (idByte 7)) AckStatus.delivered 5)],
         [] ++ [⟨idByte 7, uaId, ubId, ['h', 'i'], false, false, 5⟩]) ∧
     (handleDirectMessage [] [] uaId ['a'] (some (uuidString ubId)) (some ['h', 'i'])
        (some ['c', '1']) (idByte 7) 5 true).1.head?
      = some (Eff.toSender (Envelope.ack ['c', '1'] (uuidString (idByte 7)) AckStatus.sent 5))) :=
  ⟨by decide, by decide,
    directMessage_offline_behavior [] [] uaId ['a'] (uuidString ubId) ['h', 'i'] ['c', '1']
      ubId (idByte 7) 5 (by decide) (by decide)⟩

/-- Claim C7: when `SaveMessage` fails, the handler emits the `sent`
acknowledgement (already sent before persistence) and then the class-1009
server-error envelope to the sender, and stops — no `delivered`
acknowledgement, no push to anyone, and the store is unchanged. -/
theorem directMessage_saveFailure_stops
    (connected : List (List Char)) (db : List Msg) (senderUid : UUIDv)
    (senderName rStr text cmid : List Char) (recipientID serverMsgId : UUIDv) (now : Nat)
    (hparse : uuidParse rStr = some recipientID) :
    handleDirectMessage connected db senderUid senderName (some rStr) (some text)
        (some cmid) serverMsgId now true
      = ([Eff.toSender (Envelope.ack cmid (uuidString serverMsgId) AckStatus.sent now),
          Eff.toSender (Envelope.errMsg 1009)], db) := by
  simp [handleDirectMessage, hparse]

/-- Witness for C7 at a concrete input. -/
theorem directMessage_saveFailure_stops_witness :
    uuidParse (uuidString ubId) = some ubId ∧
    handleDirectMessage [] dbTwo uaId ['a'] (some (uuidString ubId)) (some ['h', 'i'])
        (some ['c', '1']) (idByte 7) 5 true
      = ([Eff.toSender (Envelope.ack ['c', '1'] (uuidString (idByte 7)) AckStatus.sent 5),
          Eff.toSender (Envelope.errMsg 1009)], dbTwo) :=
  ⟨by decide,
    directMessage_saveFailure_stops [] dbTwo uaId ['a'] (uuidString ubId) ['h', 'i']
      ['c', '1'] ubId (idByte 7) 5 (by decide)⟩

/-- Claim C8: conversation-identifier derivation
(`GetOrCreateConversation`) is a pure symmetric function of the two
participant identities: swapping the arguments yields the same identifier
(the canonical strings joined by a hyphen, lexicographically smaller
first). -/
theorem deriveConversationId_symmetric (a b : UUIDv) :
    GetOrCreateConversation a b = GetOrCreateConversation b a :=
  joinMinMax_comm (uuidString a) (uuidString b)

/-- Claim C9 (failing-input evaluation): `splitConversationID` accepts the
length-82 identifier whose second component is in `urn:uuid:` form, and the
length-73 identifier whose separator is an underscore — refuting both that
every input of total length other than 73 is rejected and that only
`<uuid>-<uuid>` is accepted (only inputs *shorter* than 73 are rejected, and
the separator character is never examined). -/
theorem splitConversationID_laxness :
    urnConvId.length = 82 ∧ splitConversationID urnConvId = some (uaId, ubId) ∧
    underscoreConvId.length = 73 ∧ charAt underscoreConvId 36 = '_' ∧
    splitConversationID underscoreConvId = some (uaId, ubId) := by decide

/-- Claim C10: conversation membership is decided purely syntactically.
`IsUserInConversation` (whose model, like the Go method, consults no stored
state) answers `true` exactly when the identifier splits into two UUIDs and
the user equals one of them — independently of any stored messages. -/
theorem membership_is_syntactic (conversationID : List Char) (userID : UUIDv) :
    IsUserInConversation conversationID userID = some true ↔
      ∃ user1ID user2ID, splitConversationID conversationID = some (user1ID, user2ID) ∧
        (userID = user1ID ∨ userID = user2ID) := by
  unfold IsUserInConversation
  cases h : splitConversationID conversationID with
  | none => simp
  | some p =>
    obtain ⟨u1, u2⟩ := p
    simp only [Option.some.injEq, decide_eq_true_eq]
    constructor
    · intro hu
      exact ⟨u1, u2, rfl, hu⟩
    · rintro ⟨x, y, hxy, hu⟩
      rw [Prod.mk.injEq] at hxy
      obtain ⟨hx1, hx2⟩ := hxy
      subst hx1
      subst hx2
      exact hu

end Chat
